import Mathlib

/-!
# Verification of `pywebio/output.py`

A shallow embedding of the output-rendering API of `pywebio/output.py`.
Python values that can appear in an instruction's `spec` mapping are embedded
as the inductive `Val`; a Python `dict` is an insertion-ordered association
list.  Fallible operations (Python `assert` failures, `IndexError`) return
`Except String`.  The destination session is an opaque handle (`Session`);
the ambient `Global.active_ws` is passed explicitly as the `active` argument
of every dispatching operation, and the messages handed to the outbound
channel are collected in a `List Dispatch`.
-/

namespace PyWebIO

/-- Opaque session handle (`Global.active_ws` / the `ws` parameter). -/
abbrev Session := Nat

/-- Embedded Python value, as it can appear inside an instruction `spec`.
`tuple` and `list` are distinct constructors because `isinstance(x, list)`
distinguishes them in the source. -/
inductive Val : Type where
  | str : String → Val
  | bool : Bool → Val
  | tuple : List Val → Val
  | list : List Val → Val
  | dict : List (String × Val) → Val

/-- The envelope handed to the outbound message channel:
`{command: ..., spec: ...}`. -/
structure Envelope where
  command : String
  spec : List (String × Val)

/-- One message delivered to one session's queue (`add_server_msg`). -/
structure Dispatch where
  target : Session
  msg : Envelope

/-- Python truthiness of an optional string argument: `None` and `''` are
falsy, every other string is truthy.  Used for `if anchor:`, `before and
after`, etc. in the source. -/
def truthy : Option String → Bool
  | none => false
  | some s => !(s == "")

/-- Python truthiness of the optional `header` argument of `put_table`:
`None` and `[]` are falsy. -/
def truthyList : Option (List String) → Bool
  | none => false
  | some l => !l.isEmpty

/-- Modelled from the spec: `io_ctrl.send_msg` is not part of `src/`
(only `output.py` is).  Per the spec's outbound-message-channel contract it
wraps the given command and spec into an envelope `{command, spec}` and
delivers it to the active session. -/
def send_msg (cmd : String) (spec : List (String × Val)) (active : Session) : List Dispatch :=
  [⟨active, ⟨cmd, spec⟩⟩]

/-- Source function `set_title(title)`: `send_msg('output_ctl', dict(title=title))`. -/
def set_title (title : String) (active : Session) : List Dispatch :=
  send_msg "output_ctl" [("title", Val.str title)] active

/-- Source function `set_output_fixed_height(enabled=True)`. -/
def set_output_fixed_height (enabled : Bool) (active : Session) : List Dispatch :=
  send_msg "output_ctl" [("output_fixed_height", Val.bool enabled)] active

/-- Source function `set_auto_scroll_bottom(enabled=True)`. -/
def set_auto_scroll_bottom (enabled : Bool) (active : Session) : List Dispatch :=
  send_msg "output_ctl" [("auto_scroll_bottom", Val.bool enabled)] active

/-- Source template application `_AnchorTPL % name`: the template `'pywebio-anchor-%s'` applied to
`name` (`%s` substitutes the string verbatim). -/
def _AnchorTPL (name : String) : String := "pywebio-anchor-" ++ name

/-- Source function `set_anchor(name)`. -/
def set_anchor (name : String) (active : Session) : List Dispatch :=
  send_msg "output_ctl" [("set_anchor", Val.str (_AnchorTPL name))] active

/-- Source function `clear_before(anchor)`. -/
def clear_before (anchor : String) (active : Session) : List Dispatch :=
  send_msg "output_ctl" [("clear_before", Val.str (_AnchorTPL anchor))] active

/-- Source function `clear_after(anchor)`. -/
def clear_after (anchor : String) (active : Session) : List Dispatch :=
  send_msg "output_ctl" [("clear_after", Val.str (_AnchorTPL anchor))] active

/-- Source function `clear_range(start_anchor, end_anchor)`. -/
def clear_range (start_anchor end_anchor : String) (active : Session) : List Dispatch :=
  send_msg "output_ctl"
    [("clear_range", Val.list [Val.str (_AnchorTPL start_anchor), Val.str (_AnchorTPL end_anchor)])]
    active

/-- Source function `scroll_to(anchor)`. -/
def scroll_to (anchor : String) (active : Session) : List Dispatch :=
  send_msg "output_ctl" [("scroll_to", Val.str (_AnchorTPL anchor))] active

/-- The message of the failing `assert not (before and after)`. -/
def assertMsg : String := "Parameter 'before' and 'after' cannot be specified at the same time"

/-- The `spec` mapping assembled by `_put_content`, in Python dict insertion
order: `type` first, then the `**other_spec` keyword fields, then `anchor`
when truthy, then `before` when truthy, else `after` when truthy. -/
def buildSpec (type : String) (anchor before after : Option String)
    (other_spec : List (String × Val)) : List (String × Val) :=
  (("type", Val.str type) :: other_spec)
    ++ (if truthy anchor then [("anchor", Val.str (_AnchorTPL (anchor.getD "")))] else [])
    ++ (if truthy before then [("before", Val.str (_AnchorTPL (before.getD "")))]
        else if truthy after then [("after", Val.str (_AnchorTPL (after.getD "")))] else [])

/-- Source function `_put_content(type, ws=None, anchor=None, before=None, after=None,
**other_spec)`: asserts `not (before and after)`, builds the spec, wraps it
in the `output` envelope and hands it to `(ws or Global.active_ws)`. -/
def _put_content (type : String) (ws : Option Session) (anchor before after : Option String)
    (other_spec : List (String × Val)) (active : Session) : Except String (List Dispatch) :=
  if truthy before && truthy after then
    Except.error assertMsg
  else
    Except.ok [⟨ws.getD active, ⟨"output", buildSpec type anchor before after other_spec⟩⟩]

/-- Source function `put_text(text, inline=False, anchor=None, before=None, after=None)`. -/
def put_text (text : String) (inline : Bool) (anchor before after : Option String)
    (active : Session) : Except String (List Dispatch) :=
  _put_content "text" none anchor before after
    [("content", Val.str text), ("inline", Val.bool inline)] active

/-- Source function `put_html(html, anchor=None, before=None, after=None)`. -/
def put_html (html : String) (anchor before after : Option String)
    (active : Session) : Except String (List Dispatch) :=
  _put_content "html" none anchor before after [("content", Val.str html)] active

/-- Split a character list on `'\n'`, keeping empty segments
(`"a\n\nb" ↦ ["a", "", "b"]`, `"" ↦ [""]`). -/
def splitNL : List Char → List (List Char)
  | [] => [[]]
  | c :: rest =>
    if c = '\n' then [] :: splitNL rest
    else
      match splitNL rest with
      | [] => [[c]]
      | l :: ls => (c :: l) :: ls

/-- Python `str.splitlines()`, modelled for `'\n'` line boundaries (the only
line terminator occurring in this development): the empty string yields `[]`,
and a trailing `'\n'` does not produce a trailing empty line. -/
def py_splitlines (s : String) : List String :=
  if s.data.isEmpty then []
  else
    let parts := (splitNL s.data).map (fun l => String.mk l)
    if s.data.getLast? = some '\n' then parts.dropLast else parts

/-- Python `'\n'.join(lines)`. -/
def joinLines : List String → String
  | [] => ""
  | [l] => l
  | l :: ls => l ++ "\n" ++ joinLines ls

/-- Python `sep.join(parts)`. -/
def pyJoin (sep : String) : List String → String
  | [] => ""
  | [p] => p
  | p :: ps => p ++ sep ++ pyJoin sep ps

/-- One line of the `strip_indent` pre-processing of `put_markdown`:
`i[strip_indent:] if i[:strip_indent] == ' ' * strip_indent else i`. -/
def stripIndentLine (strip_indent : Nat) (i : String) : String :=
  if i.data.take strip_indent = List.replicate strip_indent ' ' then
    String.mk (i.data.drop strip_indent)
  else i

/-- The ASCII whitespace characters stripped by Python `str.lstrip()`. -/
def pyWhitespace (c : Char) : Bool :=
  c = ' ' || c = '\t' || c = '\n' || c = '\r' || c = '\x0b' || c = '\x0c'

/-- Python `i.lstrip()` (leading-whitespace removal). -/
def pyLstripStr (i : String) : String :=
  String.mk (i.data.dropWhile pyWhitespace)

/-- The line-by-line pre-processing applied by `put_markdown` to `mdcontent`
before dispatch: the `strip_indent` pass (when non-zero), then the `lstrip`
pass (when true), each splitting on lines and re-joining with `'\n'`. -/
def mdPreprocess (mdcontent : String) (strip_indent : Nat) (lstrip : Bool) : String :=
  let md1 :=
    if strip_indent ≠ 0 then
      joinLines ((py_splitlines mdcontent).map (stripIndentLine strip_indent))
    else mdcontent
  if lstrip then joinLines ((py_splitlines md1).map pyLstripStr) else md1

/-- Source function `put_markdown(mdcontent, strip_indent=0, lstrip=False, anchor=None,
before=None, after=None)`. -/
def put_markdown (mdcontent : String) (strip_indent : Nat) (lstrip : Bool)
    (anchor before after : Option String) (active : Session) : Except String (List Dispatch) :=
  _put_content "markdown" none anchor before after
    [("content", Val.str (mdPreprocess mdcontent strip_indent lstrip))] active

/-- Source function `put_code(content, langage='', anchor=None, before=None, after=None)`:
builds `"```%s\n%s\n```" % (langage, content)` and delegates to
`put_markdown`. -/
def put_code (content langage : String) (anchor before after : Option String)
    (active : Session) : Except String (List Dispatch) :=
  put_markdown ("```" ++ langage ++ "\n" ++ content ++ "\n```") 0 false anchor before after active

/-- A row of the `tdata` argument of `put_table`.  A caller supplies `cells`
(a Python `list` row) or `dictRow` (a mapping row, used with `header`);
`pystr` rows (bare Python strings) arise from the single-row slice
assignment `tdata[0:0] = [' '] * len(tdata[0])`, which inserts bare
one-space strings into the row list. -/
inductive TRow : Type where
  | cells : List String → TRow
  | pystr : String → TRow
  | dictRow : List (String × String) → TRow
deriving DecidableEq

/-- Python iteration over a row as done by `map(quote, row)` and `len(row)`:
a list yields its items, a string yields its characters (as one-character
strings), a mapping yields its keys. -/
def rowIter : TRow → List String
  | TRow.cells l => l
  | TRow.pystr s => s.data.map (fun c => String.mk [c])
  | TRow.dictRow d => d.map Prod.fst

/-- Source expression `row.get(k, '')` of the header projection, on a
mapping row: the value stored at `k`, or `''` when the key is absent. -/
def dictGet (d : List (String × String)) (k : String) : String :=
  (d.lookup k).getD ""

/-- Whether the header projection of `put_table` raises `AttributeError`:
the `if header:` branch is taken (truthy header) and some row is not a
mapping, so its `row.get(k, '')` call fails.  `put_table` checks this error
path before using the projected value, so the projection helpers below are
only consulted when every row is a mapping. -/
def projectionRaises (tdata : List TRow) (header : Option (List String)) : Bool :=
  truthyList header && tdata.any (fun r =>
    match r with
    | TRow.dictRow _ => false
    | TRow.cells _ => true
    | TRow.pystr _ => true)

/-- One row of the header projection of `put_table`:
`[row.get(k, '') for k in header]` for a mapping row.  On a non-mapping row
Python raises `AttributeError`; that case is excluded by the
`projectionRaises` guard of `put_table`, and the value returned here for it
(the row itself) is never used. -/
def projectRow (header : List String) (row : TRow) : TRow :=
  match row with
  | TRow.dictRow d => TRow.cells (header.map (dictGet d))
  | r => r

/-- The cell-escaping helper `quote` of `put_table`:
`str(data).replace('|', r'\|')` (cells are strings here, so `str` is the
identity). -/
def pyReplacePipe : List Char → List Char
  | [] => []
  | c :: rest =>
    if c = '|' then '\\' :: '|' :: pyReplacePipe rest else c :: pyReplacePipe rest

/-- Source function `quote(data)` of `put_table`. -/
def quote (data : String) : String := String.mk (pyReplacePipe data.data)

/-- The row list after the header projection of `put_table`
(`if header: tdata = [[row.get(k, '') for k in header] for row in tdata]`);
projection rebinds the local name, leaving the caller's list untouched. -/
def tableProjected (tdata : List TRow) (header : Option (List String)) : List TRow :=
  if truthyList header then tdata.map (projectRow (header.getD [])) else tdata

/-- The row list after the single-row slice assignment of `put_table`:
`if len(tdata) == 1: tdata[0:0] = [' '] * len(tdata[0])` prepends
`len(tdata[0])` bare one-space strings to the row list. -/
def tableFinal (tdata : List TRow) (header : Option (List String)) : List TRow :=
  if (tableProjected tdata header).length = 1 then
    List.replicate
        (rowIter ((tableProjected tdata header).headD (TRow.cells []))).length (TRow.pystr " ")
      ++ tableProjected tdata header
  else tableProjected tdata header

/-- The Markdown source built by `put_table` from the final row list:
a pipe-joined header line from the first row, a separator of `----` cells
(one per `len(tdata[0])`), then one pipe-joined line per remaining row. -/
def tableSrc (tdata : List TRow) : String :=
  let r0 := tdata.headD (TRow.cells [])
  let headerLine := "|" ++ pyJoin "|" ((rowIter r0).map quote) ++ "|"
  let sepLine := "|" ++ pyJoin "|" (List.replicate (rowIter r0).length "----") ++ "|"
  let bodyLines := tdata.tail.map (fun tr => "|" ++ pyJoin "|" ((rowIter tr).map quote) ++ "|")
  joinLines (headerLine :: sepLine :: bodyLines)

/-- Source function `put_table(tdata, header=None, anchor=None, before=None, after=None)`.
The first component is the dispatch outcome: a truthy header over a
non-mapping row raises `AttributeError` inside the projection comprehension
(before the slice assignment, the `tdata[0]` lookup and the
`before`/`after` assertion), `tdata[0]` on an empty row list raises
`IndexError`, and both raise before any dispatch.  The second component is
the final state of the caller-supplied `tdata` list object, which is
mutated in place by the slice assignment exactly when the call got past the
projection without rebinding `tdata` to a fresh list; on either error path
and on the projecting path the caller's list is left untouched. -/
def put_table (tdata : List TRow) (header : Option (List String))
    (anchor before after : Option String) (active : Session) :
    Except String (List Dispatch) × List TRow :=
  if projectionRaises tdata header then
    (Except.error "AttributeError: 'list' object has no attribute 'get'", tdata)
  else
    (if tableFinal tdata header = [] then Except.error "IndexError: list index out of range"
     else put_markdown (tableSrc (tableFinal tdata header)) 0 false anchor before after active,
     if truthyList header then tdata else tableFinal tdata header)

/-- Source function `_format_button(buttons)`: a `Mapping` must carry both `value` and
`label` and is kept as-is; a Python `list` must have exactly two elements
and becomes `dict(zip(('value', 'label'), btn))`; anything else — including
a tuple, which `isinstance(btn, list)` rejects — is used as both `value`
and `label`. -/
def _format_button : List Val → Except String (List (List (String × Val)))
  | [] => Except.ok []
  | btn :: rest => do
    let b ←
      match btn with
      | Val.dict d =>
        if (d.lookup "value").isSome ∧ (d.lookup "label").isSome then pure d
        else Except.error "actions item must have value and label key"
      | Val.list l =>
        match l with
        | [v, lb] => pure [("value", v), ("label", lb)]
        | _ => Except.error "actions item format error"
      | other => pure [("value", other), ("label", other)]
    let bs ← _format_button rest
    pure (b :: bs)

/-- Source function `put_buttons(buttons, onclick, small=False, save=None, mutex_mode=False,
anchor=None, before=None, after=None)`.  `onclick`, `save` and `mutex_mode`
are consumed only by `output_register_callback` (io_ctrl, not in `src/`);
per the spec's callback-registry contract that registration returns an
opaque identifier, modelled by the `callback_id` parameter. -/
def put_buttons (buttons : List Val) (callback_id : String) (small : Bool)
    (anchor before after : Option String) (active : Session) : Except String (List Dispatch) :=
  if truthy before && truthy after then Except.error assertMsg
  else
    match _format_button buttons with
    | Except.error e => Except.error e
    | Except.ok btns =>
      _put_content "buttons" none anchor before after
        [("callback_id", Val.str callback_id),
         ("buttons", Val.list (btns.map Val.dict)),
         ("small", Val.bool small)] active

/-- The base64 alphabet, in index order. -/
def b64chars : List Char :=
  ['A', 'B', 'C', 'D', 'E', 'F', 'G', 'H', 'I', 'J', 'K', 'L', 'M',
   'N', 'O', 'P', 'Q', 'R', 'S', 'T', 'U', 'V', 'W', 'X', 'Y', 'Z',
   'a', 'b', 'c', 'd', 'e', 'f', 'g', 'h', 'i', 'j', 'k', 'l', 'm',
   'n', 'o', 'p', 'q', 'r', 's', 't', 'u', 'v', 'w', 'x', 'y', 'z',
   '0', '1', '2', '3', '4', '5', '6', '7', '8', '9', '+', '/']

/-- The alphabet character of a six-bit group. -/
def b64char (n : Nat) : Char := b64chars.getD n 'A'

/-- Standard base64 encoding of a byte sequence (bytes as naturals below
256), as performed by `base64.b64encode`: three bytes become four alphabet
characters, a final one- or two-byte group is padded with `'='`. -/
def b64encodeBytes : List Nat → List Char
  | [] => []
  | [b0] => [b64char (b0 / 4), b64char (b0 % 4 * 16), '=', '=']
  | [b0, b1] => [b64char (b0 / 4), b64char (b0 % 4 * 16 + b1 / 16), b64char (b1 % 16 * 4), '=']
  | b0 :: b1 :: b2 :: rest =>
    [b64char (b0 / 4), b64char (b0 % 4 * 16 + b1 / 16),
     b64char (b1 % 16 * 4 + b2 / 64), b64char (b2 % 64)]
      ++ b64encodeBytes rest

/-- The index of an alphabet character (inverse of `b64char` on the
alphabet). -/
def sextetOf (c : Char) : Nat := b64chars.indexOf c

/-- Standard base64 decoding of a well-formed encoding: each four-character
group yields three bytes, or fewer when `'='`-padded. -/
def b64decodeBytes : List Char → List Nat
  | c0 :: c1 :: c2 :: c3 :: rest =>
    if c2 = '=' then [sextetOf c0 * 4 + sextetOf c1 / 16]
    else if c3 = '=' then
      [sextetOf c0 * 4 + sextetOf c1 / 16, sextetOf c1 % 16 * 16 + sextetOf c2 / 4]
    else
      [sextetOf c0 * 4 + sextetOf c1 / 16, sextetOf c1 % 16 * 16 + sextetOf c2 / 4,
       sextetOf c2 % 4 * 64 + sextetOf c3]
        ++ b64decodeBytes rest
  | _ => []

/-- Source function `put_file(name, content, anchor=None, before=None, after=None)`:
asserts the `before`/`after` precondition, base64-encodes the content into
an ASCII string (`b64encode(content).decode('ascii')`) and emits a `file`
instruction. -/
def put_file (name : String) (content : List Nat) (anchor before after : Option String)
    (active : Session) : Except String (List Dispatch) :=
  if truthy before && truthy after then Except.error assertMsg
  else
    _put_content "file" none anchor before after
      [("name", Val.str name), ("content", Val.str (String.mk (b64encodeBytes content)))] active

/-- The spec mappings carried by the dispatched envelopes of an operation's
outcome (empty on a local failure). -/
def sentSpecs : Except String (List Dispatch) → List (List (String × Val))
  | Except.ok ds => ds.map (fun d => d.msg.spec)
  | Except.error _ => []

/-- Ordered-association-list lookup in a spec mapping (first match wins,
as for a Python dict with distinct keys). -/
def specGet : List (String × Val) → String → Option Val
  | [], _ => none
  | (k, v) :: rest, key => if key = k then some v else specGet rest key

/-- The value of field `key` of the single dispatched instruction of an
operation's outcome (`none` when the operation failed, dispatched an
unexpected number of instructions, or omitted the field). -/
def fieldOf (r : Except String (List Dispatch)) (key : String) : Option Val :=
  match sentSpecs r with
  | [s] => specGet s key
  | _ => none

/-- Holds (as `true`) exactly on a locally failed outcome. -/
def isErr {α : Type} : Except String α → Bool
  | Except.error _ => true
  | Except.ok _ => false

/-- The number of instructions an outcome dispatched. -/
def dispatchCount : Except String (List Dispatch) → Nat
  | Except.ok ds => ds.length
  | Except.error _ => 0

/-- An operation outcome that raised no error, dispatched exactly one
instruction, and omitted the `anchor`, `before` and `after` fields. -/
def emptyPosAbsent (r : Except String (List Dispatch)) : Prop :=
  isErr r = false ∧ dispatchCount r = 1 ∧
  fieldOf r "anchor" = none ∧ fieldOf r "before" = none ∧ fieldOf r "after" = none

/-- A control operation's output: exactly one envelope, with the given
command, delivered to the given session. -/
def oneEnvelopeL (l : List Dispatch) (c : String) (tgt : Session) : Prop :=
  ∃ s, l = [⟨tgt, ⟨c, s⟩⟩]

/-- A content operation's outcome: exactly one envelope, with the given
command, delivered to the given session. -/
def oneEnvelope (r : Except String (List Dispatch)) (c : String) (tgt : Session) : Prop :=
  ∃ s, r = Except.ok [⟨tgt, ⟨c, s⟩⟩]

theorem truthy_some {s : String} (h : s ≠ "") : truthy (some s) = true := by
  simp [truthy, h]

theorem putContent_err (type : String) (ws : Option Session) (anchor b a : Option String)
    (os : List (String × Val)) (active : Session) (hb : truthy b = true) (ha : truthy a = true) :
    _put_content type ws anchor b a os active = Except.error assertMsg := by
  simp [_put_content, hb, ha]

theorem putContent_ok (type : String) (ws : Option Session) (anchor b a : Option String)
    (os : List (String × Val)) (active : Session) (h : (truthy b && truthy a) = false) :
    _put_content type ws anchor b a os active
      = Except.ok [⟨ws.getD active, ⟨"output", buildSpec type anchor b a os⟩⟩] := by
  simp only [_put_content, h, Bool.false_eq_true, if_false]

theorem tableProjected_ne_nil (tdata : List TRow) (header : Option (List String))
    (h : tdata ≠ []) : tableProjected tdata header ≠ [] := by
  unfold tableProjected
  split
  · simpa using h
  · exact h

theorem tableFinal_ne_nil (tdata : List TRow) (header : Option (List String))
    (h : tdata ≠ []) : tableFinal tdata header ≠ [] := by
  have h1 := tableProjected_ne_nil tdata header h
  unfold tableFinal
  split
  · intro e
    exact h1 (List.append_eq_nil.mp e).2
  · exact h1

theorem put_table_fst (tdata : List TRow) (header : Option (List String))
    (anchor b a : Option String) (active : Session) (h : tdata ≠ [])
    (hp : projectionRaises tdata header = false) :
    (put_table tdata header anchor b a active).1
      = put_markdown (tableSrc (tableFinal tdata header)) 0 false anchor b a active := by
  simp [put_table, hp, tableFinal_ne_nil tdata header h]

theorem dispatchCount_of_isErr (r : Except String (List Dispatch))
    (h : isErr r = true) : dispatchCount r = 0 := by
  cases r with
  | error e => rfl
  | ok ds => simp [isErr] at h

/-- Claim C1: Calling any content operation with both `before` and `after`
set (to truthy values, Python's notion of a supplied optional string) fails
with the `before`/`after` assertion error, and no instruction is dispatched
to any session: the outcome carries an empty dispatch list.  (No control
operation accepts `before`/`after`, so the claim is vacuous for them.  In
`put_table` two earlier failures can pre-empt the assertion: a truthy
header over a non-mapping row raises `AttributeError` in the projection,
and an empty `tdata` raises `IndexError` at `tdata[0]`; outside those
paths the assertion error is raised, and on every path — assertion,
`AttributeError` or `IndexError` — the call fails and dispatches
nothing, which is proved unconditionally.) -/
theorem c1_before_after_assertion (b a : String) (hb : b ≠ "") (ha : a ≠ "")
    (text html md code lang name cid : String) (inl small lst : Bool) (k : Nat)
    (anchor : Option String) (btns : List Val) (bytes : List Nat)
    (tdata : List TRow) (header : Option (List String)) (active : Session) :
    put_text text inl anchor (some b) (some a) active = Except.error assertMsg ∧
    put_html html anchor (some b) (some a) active = Except.error assertMsg ∧
    put_markdown md k lst anchor (some b) (some a) active = Except.error assertMsg ∧
    put_code code lang anchor (some b) (some a) active = Except.error assertMsg ∧
    (projectionRaises tdata header = false → tdata ≠ [] →
      (put_table tdata header anchor (some b) (some a) active).1 = Except.error assertMsg) ∧
    isErr ((put_table tdata header anchor (some b) (some a) active).1) = true ∧
    put_buttons btns cid small anchor (some b) (some a) active = Except.error assertMsg ∧
    put_file name bytes anchor (some b) (some a) active = Except.error assertMsg ∧
    dispatchCount (put_text text inl anchor (some b) (some a) active) = 0 ∧
    dispatchCount ((put_table tdata header anchor (some b) (some a) active).1) = 0 := by
  have hb' := truthy_some hb
  have ha' := truthy_some ha
  have herr : ∀ (ty : String) (an : Option String) (os : List (String × Val)),
      _put_content ty none an (some b) (some a) os active = Except.error assertMsg :=
    fun ty an os => putContent_err ty none an (some b) (some a) os active hb' ha'
  have htab : isErr ((put_table tdata header anchor (some b) (some a) active).1) = true := by
    rcases hp : projectionRaises tdata header with _ | _
    · rcases Decidable.em (tableFinal tdata header = []) with he | he
      · simp [put_table, hp, he, isErr]
      · simp [put_table, hp, he, put_markdown,
          putContent_err _ _ _ _ _ _ _ hb' ha', isErr]
    · simp [put_table, hp, isErr]
  refine ⟨herr _ _ _, herr _ _ _, herr _ _ _, herr _ _ _, ?_, htab, ?_, ?_, ?_,
    dispatchCount_of_isErr _ htab⟩
  · intro hp htd
    rw [put_table_fst _ _ _ _ _ _ htd hp, put_markdown]
    exact herr _ _ _
  · simp [put_buttons, hb', ha']
  · simp [put_file, hb', ha']
  · simp [put_text, putContent_err _ _ _ _ _ _ _ hb' ha', dispatchCount]

/-- Witness for claim C1. -/
theorem c1_before_after_assertion_witness :
    put_text "t" false none (some "b1") (some "a1") 0 = Except.error assertMsg := by
  exact (c1_before_after_assertion "b1" "a1" (by decide) (by decide)
    "t" "h" "m" "c" "l" "n" "i" false false false 0 none [] [] [TRow.cells ["x"]] none 0).1

theorem format_button_scalar (s : String) :
    _format_button [Val.str s] = Except.ok [[("value", Val.str s), ("label", Val.str s)]] := rfl

/-- Claim C9: For every content operation an empty-string `anchor`, `before`
or `after` is treated as absent: the call raises no error, dispatches
exactly one instruction, and the corresponding fields are omitted from the
emitted spec; the mutual-exclusion assertion fires exactly when both
`before` and `after` are truthy (non-empty). -/
theorem c9_empty_string_positioning
    (text html md lang codeS nameS cid bs : String) (inl small lst : Bool) (k : Nat)
    (bytes : List Nat) (cs1 cs2 : List String)
    (type : String) (os : List (String × Val)) (ws : Option Session)
    (an b a : Option String) (active : Session) :
    emptyPosAbsent (put_text text inl (some "") (some "") (some "") active) ∧
    emptyPosAbsent (put_html html (some "") (some "") (some "") active) ∧
    emptyPosAbsent (put_markdown md k lst (some "") (some "") (some "") active) ∧
    emptyPosAbsent (put_code codeS lang (some "") (some "") (some "") active) ∧
    emptyPosAbsent
      ((put_table [TRow.cells cs1, TRow.cells cs2] none (some "") (some "") (some "") active).1) ∧
    emptyPosAbsent (put_buttons [Val.str bs] cid small (some "") (some "") (some "") active) ∧
    emptyPosAbsent (put_file nameS bytes (some "") (some "") (some "") active) ∧
    isErr (put_text text inl an b a active) = (truthy b && truthy a) ∧
    isErr (_put_content type ws an b a os active) = (truthy b && truthy a) ∧
    truthy (some "") = false := by
  have hok : ∀ (ty : String) (ws : Option Session) (an : Option String)
      (os : List (String × Val)) (act : Session),
      _put_content ty ws an (some "") (some "") os act
        = Except.ok [⟨ws.getD act, ⟨"output", buildSpec ty an (some "") (some "") os⟩⟩] :=
    fun ty ws an os act => putContent_ok ty ws an (some "") (some "") os act rfl
  refine ⟨?_, ?_, ?_, ?_, ?_, ?_, ?_, ?_, ?_, rfl⟩
  · simp [put_text, hok, emptyPosAbsent, isErr, dispatchCount, fieldOf, sentSpecs,
      buildSpec, truthy, specGet]
  · simp [put_html, hok, emptyPosAbsent, isErr, dispatchCount, fieldOf, sentSpecs,
      buildSpec, truthy, specGet]
  · simp [put_markdown, hok, emptyPosAbsent, isErr, dispatchCount, fieldOf, sentSpecs,
      buildSpec, truthy, specGet]
  · simp [put_code, put_markdown, hok, emptyPosAbsent, isErr, dispatchCount, fieldOf,
      sentSpecs, buildSpec, truthy, specGet]
  · rw [put_table_fst _ _ _ _ _ _ (by simp) (by simp [projectionRaises, truthyList])]
    simp [put_markdown, hok, emptyPosAbsent, isErr, dispatchCount, fieldOf, sentSpecs,
      buildSpec, truthy, specGet]
  · simp [put_buttons, format_button_scalar, hok, emptyPosAbsent, isErr, dispatchCount,
      fieldOf, sentSpecs, buildSpec, truthy, specGet]
  · simp [put_file, hok, emptyPosAbsent, isErr, dispatchCount, fieldOf, sentSpecs,
      buildSpec, truthy, specGet]
  · rcases hba : truthy b && truthy a with _ | _
    · simp [put_text, putContent_ok _ _ _ _ _ _ _ hba, isErr]
    · rcases Bool.and_eq_true_iff.mp hba with ⟨hb, ha⟩
      simp [put_text, putContent_err _ _ _ _ _ _ _ hb ha, isErr]
  · rcases hba : truthy b && truthy a with _ | _
    · simp [putContent_ok _ _ _ _ _ _ _ hba, isErr]
    · rcases Bool.and_eq_true_iff.mp hba with ⟨hb, ha⟩
      simp [putContent_err _ _ _ _ _ _ _ hb ha, isErr]

theorem specGet_append_right (l1 l2 : List (String × Val)) (key : String)
    (h : specGet l1 key = none) : specGet (l1 ++ l2) key = specGet l2 key := by
  induction l1 with
  | nil => rfl
  | cons p rest ih =>
    obtain ⟨pk, pv⟩ := p
    by_cases hk : key = pk
    · simp [specGet, hk] at h
    · simp only [specGet, hk, if_false, List.cons_append] at h ⊢
      exact ih h

theorem fieldOf_putContent_anchor (type : String) (ws : Option Session) (n : String)
    (hn : n ≠ "") (os : List (String × Val)) (active : Session)
    (hos : specGet os "anchor" = none) :
    fieldOf (_put_content type ws (some n) none none os active) "anchor"
      = some (Val.str ("pywebio-anchor-" ++ n)) := by
  rw [putContent_ok type ws (some n) none none os active rfl]
  show specGet (buildSpec type (some n) none none os) "anchor" = _
  rw [buildSpec, List.append_assoc]
  rw [specGet_append_right _ _ _ (by simp [specGet, hos])]
  simp [truthy, hn, specGet, _AnchorTPL]

theorem fieldOf_putContent_before (type : String) (ws : Option Session) (n : String)
    (hn : n ≠ "") (os : List (String × Val)) (active : Session)
    (hos : specGet os "before" = none) :
    fieldOf (_put_content type ws none (some n) none os active) "before"
      = some (Val.str ("pywebio-anchor-" ++ n)) := by
  rw [putContent_ok type ws none (some n) none os active (by simp [truthy])]
  show specGet (buildSpec type none (some n) none os) "before" = _
  rw [buildSpec, List.append_assoc]
  rw [specGet_append_right _ _ _ (by simp [specGet, hos])]
  simp [truthy, hn, specGet, _AnchorTPL]

theorem fieldOf_putContent_after (type : String) (ws : Option Session) (n : String)
    (hn : n ≠ "") (os : List (String × Val)) (active : Session)
    (hos : specGet os "after" = none) :
    fieldOf (_put_content type ws none none (some n) os active) "after"
      = some (Val.str ("pywebio-anchor-" ++ n)) := by
  rw [putContent_ok type ws none none (some n) os active (by simp [truthy])]
  show specGet (buildSpec type none none (some n) os) "after" = _
  rw [buildSpec, List.append_assoc]
  rw [specGet_append_right _ _ _ (by simp [specGet, hos])]
  simp [truthy, hn, specGet, _AnchorTPL]

/-- Claim C5: For every anchor name `n`, every operation that accepts an
anchor transmits it as exactly the string `pywebio-anchor-n`, the
caller-supplied name substituted verbatim with no escaping: the five anchor
control operations, and the `anchor`/`before`/`after` options of every
content operation (a non-empty name, since an empty one is falsy and the
field is then omitted, cf. C9). -/
theorem c5_anchor_wire_format (n m : String) (hn : n ≠ "")
    (text html md lang codeS nameS cid bs : String) (inl small lst : Bool) (k : Nat)
    (bytes : List Nat) (cs1 cs2 : List String) (active : Session) :
    set_anchor n active
      = [⟨active, ⟨"output_ctl", [("set_anchor", Val.str ("pywebio-anchor-" ++ n))]⟩⟩] ∧
    clear_before n active
      = [⟨active, ⟨"output_ctl", [("clear_before", Val.str ("pywebio-anchor-" ++ n))]⟩⟩] ∧
    clear_after n active
      = [⟨active, ⟨"output_ctl", [("clear_after", Val.str ("pywebio-anchor-" ++ n))]⟩⟩] ∧
    clear_range n m active
      = [⟨active, ⟨"output_ctl",
          [("clear_range",
            Val.list [Val.str ("pywebio-anchor-" ++ n), Val.str ("pywebio-anchor-" ++ m)])]⟩⟩] ∧
    scroll_to n active
      = [⟨active, ⟨"output_ctl", [("scroll_to", Val.str ("pywebio-anchor-" ++ n))]⟩⟩] ∧
    fieldOf (put_text text inl (some n) none none active) "anchor"
      = some (Val.str ("pywebio-anchor-" ++ n)) ∧
    fieldOf (put_html html (some n) none none active) "anchor"
      = some (Val.str ("pywebio-anchor-" ++ n)) ∧
    fieldOf (put_markdown md k lst (some n) none none active) "anchor"
      = some (Val.str ("pywebio-anchor-" ++ n)) ∧
    fieldOf (put_code codeS lang (some n) none none active) "anchor"
      = some (Val.str ("pywebio-anchor-" ++ n)) ∧
    fieldOf ((put_table [TRow.cells cs1, TRow.cells cs2] none (some n) none none active).1)
        "anchor" = some (Val.str ("pywebio-anchor-" ++ n)) ∧
    fieldOf (put_buttons [Val.str bs] cid small (some n) none none active) "anchor"
      = some (Val.str ("pywebio-anchor-" ++ n)) ∧
    fieldOf (put_file nameS bytes (some n) none none active) "anchor"
      = some (Val.str ("pywebio-anchor-" ++ n)) ∧
    fieldOf (put_text text inl none (some n) none active) "before"
      = some (Val.str ("pywebio-anchor-" ++ n)) ∧
    fieldOf (put_html html none (some n) none active) "before"
      = some (Val.str ("pywebio-anchor-" ++ n)) ∧
    fieldOf (put_markdown md k lst none (some n) none active) "before"
      = some (Val.str ("pywebio-anchor-" ++ n)) ∧
    fieldOf (put_code codeS lang none (some n) none active) "before"
      = some (Val.str ("pywebio-anchor-" ++ n)) ∧
    fieldOf ((put_table [TRow.cells cs1, TRow.cells cs2] none none (some n) none active).1)
        "before" = some (Val.str ("pywebio-anchor-" ++ n)) ∧
    fieldOf (put_buttons [Val.str bs] cid small none (some n) none active) "before"
      = some (Val.str ("pywebio-anchor-" ++ n)) ∧
    fieldOf (put_file nameS bytes none (some n) none active) "before"
      = some (Val.str ("pywebio-anchor-" ++ n)) ∧
    fieldOf (put_text text inl none none (some n) active) "after"
      = some (Val.str ("pywebio-anchor-" ++ n)) ∧
    fieldOf (put_html html none none (some n) active) "after"
      = some (Val.str ("pywebio-anchor-" ++ n)) ∧
    fieldOf (put_markdown md k lst none none (some n) active) "after"
      = some (Val.str ("pywebio-anchor-" ++ n)) ∧
    fieldOf (put_code codeS lang none none (some n) active) "after"
      = some (Val.str ("pywebio-anchor-" ++ n)) ∧
    fieldOf ((put_table [TRow.cells cs1, TRow.cells cs2] none none none (some n) active).1)
        "after" = some (Val.str ("pywebio-anchor-" ++ n)) ∧
    fieldOf (put_buttons [Val.str bs] cid small none none (some n) active) "after"
      = some (Val.str ("pywebio-anchor-" ++ n)) ∧
    fieldOf (put_file nameS bytes none none (some n) active) "after"
      = some (Val.str ("pywebio-anchor-" ++ n)) := by
  have h0 : (truthy (some n) && truthy none) = false := by simp [truthy]
  refine ⟨rfl, rfl, rfl, rfl, rfl, ?_, ?_, ?_, ?_, ?_, ?_, ?_, ?_, ?_, ?_, ?_, ?_, ?_, ?_,
    ?_, ?_, ?_, ?_, ?_, ?_, ?_⟩
  · exact fieldOf_putContent_anchor _ _ _ hn _ _ rfl
  · exact fieldOf_putContent_anchor _ _ _ hn _ _ rfl
  · exact fieldOf_putContent_anchor _ _ _ hn _ _ rfl
  · exact fieldOf_putContent_anchor _ _ _ hn _ _ rfl
  · rw [put_table_fst _ _ _ _ _ _ (by simp) (by simp [projectionRaises, truthyList])]
    exact fieldOf_putContent_anchor _ _ _ hn _ _ rfl
  · exact fieldOf_putContent_anchor _ _ _ hn _ _ rfl
  · exact fieldOf_putContent_anchor _ _ _ hn _ _ rfl
  · exact fieldOf_putContent_before _ _ _ hn _ _ rfl
  · exact fieldOf_putContent_before _ _ _ hn _ _ rfl
  · exact fieldOf_putContent_before _ _ _ hn _ _ rfl
  · exact fieldOf_putContent_before _ _ _ hn _ _ rfl
  · rw [put_table_fst _ _ _ _ _ _ (by simp) (by simp [projectionRaises, truthyList])]
    exact fieldOf_putContent_before _ _ _ hn _ _ rfl
  · simp only [put_buttons, h0, Bool.false_eq_true, if_false, format_button_scalar]
    exact fieldOf_putContent_before _ _ _ hn _ _ rfl
  · simp only [put_file, h0, Bool.false_eq_true, if_false]
    exact fieldOf_putContent_before _ _ _ hn _ _ rfl
  · exact fieldOf_putContent_after _ _ _ hn _ _ rfl
  · exact fieldOf_putContent_after _ _ _ hn _ _ rfl
  · exact fieldOf_putContent_after _ _ _ hn _ _ rfl
  · exact fieldOf_putContent_after _ _ _ hn _ _ rfl
  · rw [put_table_fst _ _ _ _ _ _ (by simp) (by simp [projectionRaises, truthyList])]
    exact fieldOf_putContent_after _ _ _ hn _ _ rfl
  · simp only [put_buttons, truthy, Bool.and_comm, h0, Bool.false_eq_true, if_false,
      format_button_scalar]
    exact fieldOf_putContent_after _ _ _ hn _ _ rfl
  · simp only [put_file, truthy, Bool.and_comm, h0, Bool.false_eq_true, if_false]
    exact fieldOf_putContent_after _ _ _ hn _ _ rfl

/-- Witness for claim C5. -/
theorem c5_anchor_wire_format_witness :
    set_anchor "n0" 0
      = [⟨0, ⟨"output_ctl", [("set_anchor", Val.str "pywebio-anchor-n0")]⟩⟩] := by
  exact (c5_anchor_wire_format "n0" "m0" (by decide)
    "t" "h" "m" "l" "c" "f" "i" "s" false false false 0 [] [] [] 0).1

/-- Claim C6: Every dispatching operation produces exactly one envelope per
call: command `"output_ctl"` for the environment and anchor operations,
`"output"` for the content operations (when they do not fail locally:
`before`/`after` not both truthy, a nonempty `tdata` whose header
projection does not raise `AttributeError`, well-formed buttons).
The envelope goes to the explicitly supplied session handle when one is
given (the `ws` parameter of the shared `_put_content` primitive), else to
the currently active session. -/
theorem c6_one_envelope_per_call (title n m text html md lang codeS nameS cid : String)
    (en inl small lst : Bool) (k : Nat) (bytes : List Nat)
    (anchor b a : Option String) (h : (truthy b && truthy a) = false)
    (tdata : List TRow) (header : Option (List String)) (htd : tdata ≠ [])
    (hp : projectionRaises tdata header = false)
    (btns : List Val) (bl : List (List (String × Val)))
    (hf : _format_button btns = Except.ok bl)
    (type : String) (os : List (String × Val)) (w active : Session) :
    oneEnvelopeL (set_title title active) "output_ctl" active ∧
    oneEnvelopeL (set_output_fixed_height en active) "output_ctl" active ∧
    oneEnvelopeL (set_auto_scroll_bottom en active) "output_ctl" active ∧
    oneEnvelopeL (set_anchor n active) "output_ctl" active ∧
    oneEnvelopeL (clear_before n active) "output_ctl" active ∧
    oneEnvelopeL (clear_after n active) "output_ctl" active ∧
    oneEnvelopeL (clear_range n m active) "output_ctl" active ∧
    oneEnvelopeL (scroll_to n active) "output_ctl" active ∧
    oneEnvelope (put_text text inl anchor b a active) "output" active ∧
    oneEnvelope (put_html html anchor b a active) "output" active ∧
    oneEnvelope (put_markdown md k lst anchor b a active) "output" active ∧
    oneEnvelope (put_code codeS lang anchor b a active) "output" active ∧
    oneEnvelope ((put_table tdata header anchor b a active).1) "output" active ∧
    oneEnvelope (put_buttons btns cid small anchor b a active) "output" active ∧
    oneEnvelope (put_file nameS bytes anchor b a active) "output" active ∧
    oneEnvelope (_put_content type (some w) anchor b a os active) "output" w ∧
    oneEnvelope (_put_content type none anchor b a os active) "output" active := by
  refine ⟨⟨_, rfl⟩, ⟨_, rfl⟩, ⟨_, rfl⟩, ⟨_, rfl⟩, ⟨_, rfl⟩, ⟨_, rfl⟩, ⟨_, rfl⟩, ⟨_, rfl⟩,
    ?_, ?_, ?_, ?_, ?_, ?_, ?_, ?_, ?_⟩
  · exact ⟨_, putContent_ok _ _ _ _ _ _ _ h⟩
  · exact ⟨_, putContent_ok _ _ _ _ _ _ _ h⟩
  · exact ⟨_, putContent_ok _ _ _ _ _ _ _ h⟩
  · exact ⟨_, putContent_ok _ _ _ _ _ _ _ h⟩
  · rw [put_table_fst _ _ _ _ _ _ htd hp]
    exact ⟨_, putContent_ok _ _ _ _ _ _ _ h⟩
  · simp only [put_buttons, h, Bool.false_eq_true, if_false, hf]
    exact ⟨_, putContent_ok _ _ _ _ _ _ _ h⟩
  · simp only [put_file, h, Bool.false_eq_true, if_false]
    exact ⟨_, putContent_ok _ _ _ _ _ _ _ h⟩
  · exact ⟨_, putContent_ok _ _ _ _ _ _ _ h⟩
  · exact ⟨_, putContent_ok _ _ _ _ _ _ _ h⟩

/-- Witness for claim C6. -/
theorem c6_one_envelope_per_call_witness :
    oneEnvelopeL (set_title "T" 0) "output_ctl" 0 ∧
    oneEnvelope (put_text "t" false none none none 0) "output" 0 := by
  have h := c6_one_envelope_per_call "T" "n" "m" "t" "h" "md" "l" "c" "f" "i"
    false false false false 0 [] none none none rfl [TRow.cells ["x"]] none (by simp) rfl
    [Val.str "s"] [[("value", Val.str "s"), ("label", Val.str "s")]] rfl "ty" [] 1 0
  exact ⟨h.1, h.2.2.2.2.2.2.2.2.1⟩

/-- Claim C7: `put_code(content, language)` builds Markdown source exactly
equal to a three-backtick fence, the language tag, a newline, the content,
a newline, and a closing three-backtick fence, and delegates it to
`put_markdown`; `put_code("x=1", "python")` transmits exactly
`` ```python\nx=1\n``` ``, and with the default empty language the fence
carries no tag. -/
theorem c7_put_code_fence (content lang : String) (anchor b a : Option String)
    (active : Session) :
    put_code content lang anchor b a active
      = put_markdown ("```" ++ lang ++ "\n" ++ content ++ "\n```") 0 false anchor b a active ∧
    fieldOf (put_code content lang none none none active) "content"
      = some (Val.str ("```" ++ lang ++ "\n" ++ content ++ "\n```")) ∧
    fieldOf (put_code "x=1" "python" none none none active) "content"
      = some (Val.str "```python\nx=1\n```") ∧
    fieldOf (put_code content "" none none none active) "content"
      = some (Val.str ("```" ++ "\n" ++ content ++ "\n```")) := by
  refine ⟨rfl, ?_, ?_, ?_⟩
  · rfl
  · rfl
  · rfl

theorem mk_data (s : String) : String.mk s.data = s := rfl

theorem splitNL_no_nl (l : List Char) (h : '\n' ∉ l) : splitNL l = [l] := by
  induction l with
  | nil => rfl
  | cons c rest ih =>
    have hc : ¬(c = '\n') := fun e => h (by simp [e])
    have hr : '\n' ∉ rest := fun m => h (List.mem_cons_of_mem _ m)
    simp [splitNL, hc, ih hr]

theorem py_splitlines_single (s : String) (hne : s.data ≠ []) (h : '\n' ∉ s.data) :
    py_splitlines s = [s] := by
  have hlast : ¬(s.data.getLast? = some '\n') := by
    intro e
    have hm : '\n' ∈ s.data.getLast? := e
    obtain ⟨hh, he⟩ := List.mem_getLast?_eq_getLast hm
    exact h (he ▸ List.getLast_mem hh)
  unfold py_splitlines
  simp [hne, splitNL_no_nl s.data h, hlast, mk_data]

theorem mdPreprocess_single_noStrip (s : String) (k : Nat) (hnl : '\n' ∉ s.data)
    (hns : s.data.take k ≠ List.replicate k ' ') : mdPreprocess s k false = s := by
  unfold mdPreprocess
  rcases Decidable.em (k = 0) with hk | hk
  · simp [hk]
  · rcases Decidable.em (s.data = []) with hd | hd
    · obtain ⟨d⟩ := s
      simp only at hd
      subst hd
      simp [hk, py_splitlines, joinLines]
    · simp [hk, py_splitlines_single s hd hnl, joinLines, stripIndentLine, hns]

theorem mdPreprocess_single_lstrip (s : String) (hnl : '\n' ∉ s.data) :
    mdPreprocess s 0 true = pyLstripStr s := by
  unfold mdPreprocess
  rcases Decidable.em (s.data = []) with hd | hd
  · obtain ⟨d⟩ := s
    simp only at hd
    subst hd
    simp [py_splitlines, pyLstripStr, joinLines]
  · simp [py_splitlines_single s hd hnl, joinLines]

/-- Claim C4 counterexample: with `strip_indent=4` on
`"    # H1\n    body\n"`, `put_markdown` transmits `"# H1\nbody"`, which is
not the claimed `"# H1\nbody\n"` — the split/re-join of the source drops
the trailing line terminator. -/
theorem c4_markdown_trailing_newline_cex :
    fieldOf (put_markdown "    # H1\n    body\n" 4 false none none none 0) "content"
      = some (Val.str "# H1\nbody") ∧
    "# H1\nbody" ≠ "# H1\nbody\n" :=
  ⟨rfl, by decide⟩

/-- Claim C4 (amended): `put_markdown` on `"    # H1\n    body\n"` with
`strip_indent=4` yields `"# H1\nbody"` (the claimed result minus the
trailing newline, which the line-split/join drops), and `lstrip=true`
yields the same string; on any single line whose first `strip_indent`
characters are not all spaces, `strip_indent` leaves the line unchanged
while `lstrip` removes all of its leading whitespace, so the two options
diverge on such a line (concretely on a 2-space-indented line under
`strip_indent=4`). -/
theorem c4_markdown_strip_divergence (s : String) (k : Nat)
    (hnl : '\n' ∉ s.data) (hns : s.data.take k ≠ List.replicate k ' ') (active : Session) :
    fieldOf (put_markdown "    # H1\n    body\n" 4 false none none none active) "content"
      = some (Val.str "# H1\nbody") ∧
    fieldOf (put_markdown "    # H1\n    body\n" 0 true none none none active) "content"
      = some (Val.str "# H1\nbody") ∧
    fieldOf (put_markdown s k false none none none active) "content" = some (Val.str s) ∧
    fieldOf (put_markdown s 0 true none none none active) "content"
      = some (Val.str (pyLstripStr s)) ∧
    fieldOf (put_markdown "  x" 4 false none none none active) "content"
      = some (Val.str "  x") ∧
    fieldOf (put_markdown "  x" 0 true none none none active) "content"
      = some (Val.str "x") := by
  refine ⟨rfl, rfl, ?_, ?_, rfl, rfl⟩
  · have h3 : mdPreprocess s k false = s := mdPreprocess_single_noStrip s k hnl hns
    calc fieldOf (put_markdown s k false none none none active) "content"
        = some (Val.str (mdPreprocess s k false)) := rfl
      _ = some (Val.str s) := by rw [h3]
  · have h4 : mdPreprocess s 0 true = pyLstripStr s := mdPreprocess_single_lstrip s hnl
    calc fieldOf (put_markdown s 0 true none none none active) "content"
        = some (Val.str (mdPreprocess s 0 true)) := rfl
      _ = some (Val.str (pyLstripStr s)) := by rw [h4]

/-- Witness for claim C4. -/
theorem c4_markdown_strip_divergence_witness :
    fieldOf (put_markdown "  x" 4 false none none none 0) "content" = some (Val.str "  x") ∧
    fieldOf (put_markdown "  x" 0 true none none none 0) "content" = some (Val.str "x") := by
  have h := c4_markdown_strip_divergence "  x" 4 (by decide) (by decide) 0
  exact ⟨h.2.2.2.2.1, h.2.2.2.2.2⟩

/-- Claim C2 counterexample: `put_table([["x","y"]])` with no header emits
a Markdown table of four lines, `| |`, `|----|`, `| |`, `|x|y|` — not the
claimed three lines.  The slice assignment `tdata[0:0] = [' '] *
len(tdata[0])` inserts two bare one-space strings as rows, each rendered as
a one-cell row, rather than one blank header row of two cells. -/
theorem c2_single_row_table_cex :
    fieldOf ((put_table [TRow.cells ["x", "y"]] none none none none 0).1) "content"
      = some (Val.str "| |\n|----|\n| |\n|x|y|") ∧
    (py_splitlines "| |\n|----|\n| |\n|x|y|").length ≠ 3 :=
  ⟨rfl, by decide⟩

/-- Claim C2 (amended): when the (possibly header-projected) data has
exactly one row of `k` cells, `k` bare one-space strings are prepended as
rows (not one blank row of `k` empty cells); `put_table([["x","y"]])` with
no header emits a Markdown table of exactly 4 lines: a one-cell blank
header row `| |`, a one-cell separator row `|----|`, a one-cell blank body
row `| |`, and the body row `|x|y|`. -/
theorem c2_single_row_table_amended (cs : List String) (active : Session) :
    tableFinal [TRow.cells cs] none
      = List.replicate cs.length (TRow.pystr " ") ++ [TRow.cells cs] ∧
    fieldOf ((put_table [TRow.cells ["x", "y"]] none none none none active).1) "content"
      = some (Val.str "| |\n|----|\n| |\n|x|y|") ∧
    (py_splitlines "| |\n|----|\n| |\n|x|y|").length = 4 :=
  ⟨rfl, rfl, by decide⟩

/-- Claim C10 counterexample: `put_table` on the single-row list `[[]]`
(one row with zero cells) prepends zero elements, so the caller's list is
unchanged — not longer — after the call. -/
theorem c10_empty_single_row_cex :
    (put_table [TRow.cells []] none none none none 0).2 = [TRow.cells []] ∧
    ([TRow.cells []] : List TRow).length = 1 :=
  ⟨rfl, rfl⟩

/-- Claim C10 (amended): without a header argument and with exactly one row
of `k` cells, `put_table` mutates the caller-supplied list in place,
prepending `k` elements, so the list is longer than before whenever the row
is nonempty (for an empty single row nothing is prepended); with two or
more rows, or with a truthy header argument (projection rebinds the local
name to a fresh list), the caller's list is left unchanged. -/
theorem c10_table_mutation (cs : List String) (hcs : cs ≠ [])
    (rows : List TRow) (hrows : 2 ≤ rows.length)
    (td : List TRow) (hs : List String) (hhs : hs ≠ [])
    (anchor b a : Option String) (active : Session) :
    (put_table [TRow.cells cs] none anchor b a active).2
      = List.replicate cs.length (TRow.pystr " ") ++ [TRow.cells cs] ∧
    ((put_table [TRow.cells cs] none anchor b a active).2).length = cs.length + 1 ∧
    1 < ((put_table [TRow.cells cs] none anchor b a active).2).length ∧
    (put_table rows none anchor b a active).2 = rows ∧
    (put_table td (some hs) anchor b a active).2 = td := by
  have hlen : ((put_table [TRow.cells cs] none anchor b a active).2).length
      = cs.length + 1 := by
    show (List.replicate cs.length (TRow.pystr " ") ++ [TRow.cells cs]).length = cs.length + 1
    simp
  refine ⟨rfl, hlen, ?_, ?_, ?_⟩
  · rw [hlen]
    have : 0 < cs.length := List.length_pos.mpr hcs
    omega
  · have hne : rows.length ≠ 1 := by omega
    simp [put_table, projectionRaises, truthyList, tableFinal, tableProjected, hne]
  · have ht : truthyList (some hs) = true := by
      simp [truthyList, List.isEmpty_iff, hhs]
    rcases hp : projectionRaises td (some hs) with _ | _
    · simp [put_table, hp, ht]
    · simp [put_table, hp]

/-- Witness for claim C10. -/
theorem c10_table_mutation_witness :
    (put_table [TRow.cells ["x", "y"]] none none none none 0).2
      = List.replicate 2 (TRow.pystr " ") ++ [TRow.cells ["x", "y"]] ∧
    (put_table [TRow.dictRow [("a", "1")]] (some ["a"]) none none none 0).2
      = [TRow.dictRow [("a", "1")]] := by
  have h := c10_table_mutation ["x", "y"] (by decide)
    [TRow.cells [], TRow.cells []] (by decide)
    [TRow.dictRow [("a", "1")]] ["a"] (by decide) none none none 0
  exact ⟨h.1, h.2.2.2.2⟩

/-- Claim C3 (code bug): the docstrings of `_format_button` and
`put_buttons` document the ordered-pair form `(value, label)` — a Python
tuple — but `isinstance(btn, list)` rejects tuples, so the tuple element of
the claim's input is normalized as a bare scalar: `value` and `label` both
become the whole tuple instead of the claimed `{value: "b", label: "Bee"}`.
The same input with a two-element Python list in place of the tuple
normalizes as the claim states; a mapping lacking `value` or `label` and a
wrong-length list fail with the documented assertion errors, but a
wrong-length tuple is silently accepted as a scalar. -/
theorem c3_format_button_tuple_bug :
    _format_button
        [Val.str "a", Val.tuple [Val.str "b", Val.str "Bee"],
         Val.dict [("value", Val.str "c"), ("label", Val.str "Cee")]]
      = Except.ok
        [[("value", Val.str "a"), ("label", Val.str "a")],
         [("value", Val.tuple [Val.str "b", Val.str "Bee"]),
          ("label", Val.tuple [Val.str "b", Val.str "Bee"])],
         [("value", Val.str "c"), ("label", Val.str "Cee")]] ∧
    _format_button
        [Val.str "a", Val.list [Val.str "b", Val.str "Bee"],
         Val.dict [("value", Val.str "c"), ("label", Val.str "Cee")]]
      = Except.ok
        [[("value", Val.str "a"), ("label", Val.str "a")],
         [("value", Val.str "b"), ("label", Val.str "Bee")],
         [("value", Val.str "c"), ("label", Val.str "Cee")]] ∧
    _format_button [Val.dict [("label", Val.str "x")]]
      = Except.error "actions item must have value and label key" ∧
    _format_button [Val.list [Val.str "b", Val.str "Bee", Val.str "z"]]
      = Except.error "actions item format error" ∧
    _format_button [Val.tuple [Val.str "b", Val.str "Bee", Val.str "z"]]
      = Except.ok
        [[("value", Val.tuple [Val.str "b", Val.str "Bee", Val.str "z"]),
          ("label", Val.tuple [Val.str "b", Val.str "Bee", Val.str "z"])]] :=
  ⟨rfl, rfl, rfl, rfl, rfl⟩

theorem sextet_b64char : ∀ n < 64, sextetOf (b64char n) = n := by decide

theorem b64char_ne_pad : ∀ n < 64, b64char n ≠ '=' := by decide

theorem b64_roundtrip (bs : List Nat) :
    (∀ b ∈ bs, b < 256) → b64decodeBytes (b64encodeBytes bs) = bs := by
  induction bs using b64encodeBytes.induct with
  | case1 => intro h; rfl
  | case2 b0 =>
    intro h
    have hb0 : b0 < 256 := h b0 (by simp)
    show b64decodeBytes [b64char (b0 / 4), b64char (b0 % 4 * 16), '=', '='] = [b0]
    simp only [b64decodeBytes]
    rw [sextet_b64char (b0 / 4) (by omega), sextet_b64char (b0 % 4 * 16) (by omega)]
    have e0 : b0 / 4 * 4 + b0 % 4 * 16 / 16 = b0 := by omega
    simp [e0]
    omega
  | case3 b0 b1 =>
    intro h
    have hb0 : b0 < 256 := h b0 (by simp)
    have hb1 : b1 < 256 := h b1 (by simp)
    show b64decodeBytes
        [b64char (b0 / 4), b64char (b0 % 4 * 16 + b1 / 16), b64char (b1 % 16 * 4), '='] = [b0, b1]
    simp only [b64decodeBytes]
    rw [sextet_b64char (b0 / 4) (by omega), sextet_b64char (b0 % 4 * 16 + b1 / 16) (by omega),
      sextet_b64char (b1 % 16 * 4) (by omega)]
    have hne : b64char (b1 % 16 * 4) ≠ '=' := b64char_ne_pad _ (by omega)
    have e0 : b0 / 4 * 4 + (b0 % 4 * 16 + b1 / 16) / 16 = b0 := by omega
    have e1 : (b0 % 4 * 16 + b1 / 16) % 16 * 16 + b1 % 16 * 4 / 4 = b1 := by omega
    simp [hne, e0, e1]
    omega
  | case4 b0 b1 b2 rest ih =>
    intro h
    have hb0 : b0 < 256 := h b0 (by simp)
    have hb1 : b1 < 256 := h b1 (by simp)
    have hb2 : b2 < 256 := h b2 (by simp)
    have hrest : ∀ b ∈ rest, b < 256 := fun b hb => h b (by simp [hb])
    show b64decodeBytes
        (b64char (b0 / 4) :: b64char (b0 % 4 * 16 + b1 / 16) ::
          b64char (b1 % 16 * 4 + b2 / 64) :: b64char (b2 % 64) :: b64encodeBytes rest)
      = b0 :: b1 :: b2 :: rest
    simp only [b64decodeBytes]
    rw [sextet_b64char (b0 / 4) (by omega),
      sextet_b64char (b0 % 4 * 16 + b1 / 16) (by omega),
      sextet_b64char (b1 % 16 * 4 + b2 / 64) (by omega),
      sextet_b64char (b2 % 64) (by omega), ih hrest]
    have hne2 : b64char (b1 % 16 * 4 + b2 / 64) ≠ '=' := b64char_ne_pad _ (by omega)
    have hne3 : b64char (b2 % 64) ≠ '=' := b64char_ne_pad _ (by omega)
    have e0 : b0 / 4 * 4 + (b0 % 4 * 16 + b1 / 16) / 16 = b0 := by omega
    have e1 : (b0 % 4 * 16 + b1 / 16) % 16 * 16 + (b1 % 16 * 4 + b2 / 64) / 4 = b1 := by omega
    have e2 : (b1 % 16 * 4 + b2 / 64) % 4 * 64 + b2 % 64 = b2 := by omega
    simp [hne2, hne3, e0, e1, e2]

theorem b64char_ascii (n : Nat) : (b64char n).toNat < 128 := by
  rcases Decidable.em (n < 64) with hlt | hge
  · exact (by decide : ∀ m < 64, (b64char m).toNat < 128) n hlt
  · have hl : b64chars.length = 64 := rfl
    have hd : b64char n = 'A' := List.getD_eq_default _ _ (by omega)
    rw [hd]
    decide

theorem b64encode_ascii (bs : List Nat) : ∀ c ∈ b64encodeBytes bs, c.toNat < 128 := by
  induction bs using b64encodeBytes.induct with
  | case1 => intro c hc; simp [b64encodeBytes] at hc
  | case2 b0 =>
    intro c hc
    simp only [b64encodeBytes, List.mem_cons, List.not_mem_nil, or_false] at hc
    rcases hc with rfl | rfl | rfl | rfl
    · exact b64char_ascii _
    · exact b64char_ascii _
    · decide
    · decide
  | case3 b0 b1 =>
    intro c hc
    simp only [b64encodeBytes, List.mem_cons, List.not_mem_nil, or_false] at hc
    rcases hc with rfl | rfl | rfl | rfl
    · exact b64char_ascii _
    · exact b64char_ascii _
    · exact b64char_ascii _
    · decide
  | case4 b0 b1 b2 rest ih =>
    intro c hc
    simp only [b64encodeBytes, List.cons_append, List.nil_append, List.mem_cons] at hc
    rcases hc with rfl | rfl | rfl | rfl | hm
    · exact b64char_ascii _
    · exact b64char_ascii _
    · exact b64char_ascii _
    · exact b64char_ascii _
    · exact ih c hm

/-- Claim C8: for every byte content `c` and every name `n`, `put_file`
emits a single `file` instruction whose `content` field is the standard
base64 encoding of `c` as an ASCII string — base64-decoding the transmitted
content reproduces `c` exactly — and whose `name` field equals `n`
unmodified. -/
theorem c8_put_file_base64 (name : String) (content : List Nat)
    (h : ∀ b ∈ content, b < 256) (active : Session) :
    oneEnvelope (put_file name content none none none active) "output" active ∧
    fieldOf (put_file name content none none none active) "type" = some (Val.str "file") ∧
    fieldOf (put_file name content none none none active) "name" = some (Val.str name) ∧
    fieldOf (put_file name content none none none active) "content"
      = some (Val.str (String.mk (b64encodeBytes content))) ∧
    b64decodeBytes (b64encodeBytes content) = content ∧
    (∀ c ∈ b64encodeBytes content, c.toNat < 128) :=
  ⟨⟨_, rfl⟩, rfl, rfl, rfl, b64_roundtrip content h, b64encode_ascii content⟩

/-- Witness for claim C8. -/
theorem c8_put_file_base64_witness :
    b64decodeBytes (b64encodeBytes [0, 255, 7, 8, 9]) = [0, 255, 7, 8, 9] ∧
    fieldOf (put_file "f" [0, 255, 7, 8, 9] none none none 0) "name" = some (Val.str "f") := by
  have h := c8_put_file_base64 "f" [0, 255, 7, 8, 9] (by decide) 0
  exact ⟨h.2.2.2.2.1, h.2.2.1⟩

end PyWebIO
